import Mathlib

/-!
Verification of the `soundcloud-tools` HTTP client
(`src/soundcloud_tools/client.py`) against its natural-language
specification.  The Python code is shallowly embedded: dictionaries become
association lists (`Dict`), Python values become `PyVal`, fallible code
returns `Except`, and the network is an oracle function supplied as an
argument.  Each claim of the specification is settled by one theorem below.
-/

set_option autoImplicit false

namespace SoundcloudTools

universe u

/-! ## Python dictionaries as association lists

A Python `dict` is modelled as a list of key/value pairs with string keys.
Lookup returns the first binding.  `union d1 d2` models Python `d1 | d2`:
the result holds the keys of `d1` (values replaced by `d2`'s on collision,
i.e. the right operand wins) followed by the keys of `d2` not in `d1`.
`erase` models `dict.pop` (removal part). -/

abbrev Dict (V : Type u) := List (String × V)

namespace Dict

variable {V : Type u}

def get : Dict V → String → Option V
  | [], _ => none
  | p :: d, k => if p.1 = k then some p.2 else get d k

def erase (d : Dict V) (k : String) : Dict V :=
  d.filter (fun p => p.1 ≠ k)

def union (d1 d2 : Dict V) : Dict V :=
  d1.map (fun p => (p.1, (get d2 p.1).getD p.2)) ++
    d2.filter (fun p => (get d1 p.1).isNone)

@[simp] theorem get_nil (k : String) : get ([] : Dict V) k = none := rfl

@[simp] theorem get_cons (p : String × V) (d : Dict V) (k : String) :
    get (p :: d) k = if p.1 = k then some p.2 else get d k := rfl

theorem get_append (d1 d2 : Dict V) (k : String) :
    get (d1 ++ d2) k = (get d1 k).orElse (fun _ => get d2 k) := by
  induction d1 with
  | nil => simp [Option.orElse]
  | cons p d ih =>
    by_cases h : p.1 = k <;> simp [h, ih, Option.orElse]

theorem get_map_entry (d1 d2 : Dict V) (k : String) :
    get (d1.map (fun p => (p.1, (get d2 p.1).getD p.2))) k =
      (get d1 k).map (fun v => (get d2 k).getD v) := by
  induction d1 with
  | nil => simp
  | cons p d ih =>
    by_cases h : p.1 = k
    · subst h; simp
    · simp [h, ih]

theorem get_filter_key (d : Dict V) (q : String → Bool) (k : String) :
    get (d.filter (fun p => q p.1)) k = if q k then get d k else none := by
  induction d with
  | nil => simp
  | cons p d ih =>
    by_cases h : p.1 = k
    · subst h
      by_cases hq : q p.1 <;> simp [hq, List.filter_cons, ih]
    · by_cases hq : q p.1 <;> simp [hq, List.filter_cons, h, ih]

/-- Lookup in a Python dict union: the right operand wins on collisions,
the left operand fills the remaining keys. -/
theorem get_union (d1 d2 : Dict V) (k : String) :
    get (union d1 d2) k = (get d2 k).orElse (fun _ => get d1 k) := by
  have hf := get_filter_key d2 (fun s => (get d1 s).isNone) k
  unfold union
  rw [get_append, get_map_entry]
  cases h1 : get d1 k with
  | none =>
    rw [h1] at hf
    simp only [Option.isNone_none, if_true] at hf
    rw [hf]
    cases h2 : get d2 k <;> simp [Option.orElse]
  | some v =>
    rw [h1] at hf
    simp only [Option.isNone_some, Bool.false_eq_true, if_false] at hf
    rw [hf]
    cases h2 : get d2 k <;> simp [Option.orElse]

theorem get_erase (d : Dict V) (k k' : String) :
    get (erase d k') k = if k = k' then none else get d k := by
  unfold erase
  have := get_filter_key d (fun s => decide (s ≠ k')) k
  simp only [decide_not] at this
  by_cases h : k = k' <;> simp_all

theorem get_filter_mem (d : Dict V) (L : List String) (k : String) :
    get (d.filter (fun p => decide (p.1 ∈ L))) k =
      if k ∈ L then get d k else none := by
  have h := get_filter_key d (fun s => decide (s ∈ L)) k
  by_cases hk : k ∈ L <;> simp_all

theorem get_filter_not_mem (d : Dict V) (L : List String) (k : String) :
    get (d.filter (fun p => !decide (p.1 ∈ L))) k =
      if k ∈ L then none else get d k := by
  have h := get_filter_key d (fun s => !decide (s ∈ L)) k
  by_cases hk : k ∈ L <;> simp_all

end Dict

/-! ## Python values

`PyVal` covers the Python values that flow through the client: strings,
ints, bools, `None`, dicts and lists.  `truthy` models Python truthiness,
used by `if params.data and ...` and `value or default`. -/

inductive PyVal : Type where
  | none : PyVal
  | bool (b : Bool) : PyVal
  | int (n : Int) : PyVal
  | str (s : String) : PyVal
  | dict (d : List (String × PyVal)) : PyVal
  | list (l : List PyVal) : PyVal

namespace PyVal

def truthy : PyVal → Bool
  | .none => false
  | .bool b => b
  | .int n => n != 0
  | .str s => s != ""
  | .dict d => !d.isEmpty
  | .list l => !l.isEmpty

/-- Reads a value expected to be a dict (`full_kwargs.pop("kwargs", {})`
and friends); non-dict values never reach these positions in the client. -/
def asDict : PyVal → Dict PyVal
  | .dict d => d
  | _ => []

end PyVal

/-! ## URL path templates

The client stores each endpoint's path as a string such as
`"playlists/{playlist_id}"`.  `starlette.routing.compile_path` extracts the
placeholder names, and `str.format(**path_params)` substitutes them,
raising `KeyError` when a placeholder's value is missing.  We parse the
template once into literal-character and placeholder segments (the repo's
templates use only plain `\x7bname\x7d` placeholders, no convertors or
escaped braces). -/

inductive Segment : Type where
  | lit (c : Char) : Segment
  | param (name : String) : Segment

abbrev Template := List Segment

/-- Collects a placeholder name up to the closing brace, returning the name
and the remaining characters. -/
def takeName : List Char → List Char × List Char
  | [] => ([], [])
  | c :: rest =>
    if c = '\x7d' then ([], rest)
    else
      let p := takeName rest
      (c :: p.1, p.2)

theorem takeName_len (l : List Char) : (takeName l).2.length ≤ l.length := by
  induction l with
  | nil => simp [takeName]
  | cons c rest ih =>
    by_cases h : c = '\x7d'
    · simp [takeName, h]
    · simp only [takeName, if_neg h, List.length_cons]
      omega

/-- Fuel-indexed template scanner; the fuel is the character count, which
suffices because each step consumes at least one character. -/
def parseTemplateAux : Nat → List Char → Template
  | 0, _ => []
  | _, [] => []
  | fuel + 1, c :: rest =>
    if c = '\x7b' then
      let p := takeName rest
      Segment.param (String.mk p.1) :: parseTemplateAux fuel p.2
    else
      Segment.lit c :: parseTemplateAux fuel rest

def parseTemplate (path : String) : Template :=
  parseTemplateAux path.data.length path.data

/-- Placeholder names of a template, as returned by `compile_path`. -/
def paramNames (t : Template) : List String :=
  t.filterMap (fun s => match s with
    | Segment.param n => some n
    | Segment.lit _ => none)

/-- Python `str(value)` for the values that reach path substitution. -/
def PyVal.pyStr : PyVal → String
  | .none => "None"
  | .bool b => if b then "True" else "False"
  | .int n => toString n
  | .str s => s
  | .dict _ => "\x7b...\x7d"
  | .list _ => "[...]"

/-- Python `path.format(**path_params)`: substitutes each placeholder,
raising `KeyError` (modelled as `Except.error`) when a placeholder name is
not among the supplied parameters. -/
def formatPath : Template → Dict PyVal → Except String String
  | [], _ => Except.ok ""
  | Segment.lit c :: rest, ps =>
    (formatPath rest ps).map (fun s => String.singleton c ++ s)
  | Segment.param n :: rest, ps =>
    match Dict.get ps n with
    | some v => (formatPath rest ps).map (fun s => v.pyStr ++ s)
    | none => Except.error ("KeyError: " ++ n)

/-- `Client.make_url` (client.py line 116): base URL joined to the
formatted path. -/
def make_url (base_url : String) (path : String) (path_params : Dict PyVal) :
    Except String String :=
  (formatPath (parseTemplate path) path_params).map
    (fun s => base_url ++ "/" ++ s)

/-! ## Parameter splitting (`SplitParams.from_route`, client.py lines 31-53)

Inputs of the model:
* `defaults`: `get_default_kwargs(endpoint)`, the keyword defaults declared
  in the endpoint's signature;
* `kwargs`: the caller's keyword arguments;
* `additional`: the dict returned by `await endpoint(client, **kwargs) or
  \x7b\x7d` (every endpoint body in the repo is `...`, so this is empty at
  every call site, but the model keeps it);
* `expected_path_params`: the placeholder names from `compile_path`;
* `data_type`: when the endpoint annotates `data`, the serializer
  `TypeAdapter(data_type).dump_json`, which raises (`Except.error`) on a
  payload that fails schema validation. -/

structure SplitParams : Type where
  path_params : Dict PyVal
  query_params : Dict PyVal
  data : PyVal
  content : Option String
  kwargs : Dict PyVal

def SplitParams.from_route (defaults kwargs additional : Dict PyVal)
    (expected_path_params : List String)
    (data_type : Option (PyVal → Except String String)) :
    Except String SplitParams :=
  -- full_kwargs = get_default_kwargs(endpoint) | kwargs
  let full_kwargs := Dict.union defaults kwargs
  -- params.kwargs = full_kwargs.pop("kwargs", \x7b\x7d), updated with
  -- additional_params.pop("kwargs", \x7b\x7d)
  let sp_kwargs := Dict.union
    (PyVal.asDict ((Dict.get full_kwargs "kwargs").getD (PyVal.dict [])))
    (PyVal.asDict ((Dict.get additional "kwargs").getD (PyVal.dict [])))
  let full1 := Dict.erase full_kwargs "kwargs"
  let additional1 := Dict.erase additional "kwargs"
  -- params.data = full_kwargs.pop("data", None) or additional_params.get("data")
  let dataPopped := (Dict.get full1 "data").getD PyVal.none
  let full2 := Dict.erase full1 "data"
  let dataVal := if dataPopped.truthy then dataPopped
    else (Dict.get additional1 "data").getD PyVal.none
  -- if params.data and (data_type := endpoint.__annotations__.get("data")):
  --     params.content = TypeAdapter(data_type).dump_json(params.data)
  let contentE : Except String (Option String) :=
    if dataVal.truthy then
      match data_type with
      | some ser => (ser dataVal).map (fun s => some s)
      | none => Except.ok none
    else Except.ok none
  -- path_params / query_params split over the remaining kwargs
  let path_params := full2.filter
    (fun p => decide (p.1 ∈ expected_path_params))
  let query0 := full2.filter
    (fun p => decide (p.1 ∉ expected_path_params))
  -- params.query_params.update(additional_params.get("query", \x7b\x7d))
  let query1 := Dict.union query0
    (PyVal.asDict ((Dict.get additional1 "query").getD (PyVal.dict [])))
  -- params.query_params.update(params.query_params.pop("params", \x7b\x7d))
  let paramsVal :=
    PyVal.asDict ((Dict.get query1 "params").getD (PyVal.dict []))
  let query2 := Dict.union (Dict.erase query1 "params") paramsVal
  contentE.map (fun content =>
    { path_params := path_params
      query_params := query2
      data := dataVal
      content := content
      kwargs := sp_kwargs })

/-! ## The routed call (`route`, client.py lines 56-81)

The decorated caller splits the parameters, builds the URL, performs the
request, and post-processes the response:
* a body that fails JSON decoding (`json.decoder.JSONDecodeError`) is
  logged and the call returns `None` (`RouteResult.softNone`);
* with no declared `response_model` the parsed structure is returned raw;
* with a declared `response_model`, `TypeAdapter(...).validate_python`
  either returns the validated value or raises (`Except.error`).

The network is the oracle `http : url → content → query → Response`; the
first component of the result is the list of URLs actually requested, so
"no network call was made" is expressible. -/

structure Response : Type where
  /-- Result of `response.json()`: `none` models a `JSONDecodeError`. -/
  json : Option PyVal

inductive RouteResult : Type where
  /-- The decoded-body failure path: the call logs and returns `None`. -/
  | softNone : RouteResult
  /-- No response model declared: the raw parsed structure. -/
  | raw (j : PyVal) : RouteResult
  /-- The value validated by the declared response model. -/
  | validated (r : PyVal) : RouteResult

def route (base_url path : String) (defaults kwargs additional : Dict PyVal)
    (data_type : Option (PyVal → Except String String))
    (response_model : Option (PyVal → Except String PyVal))
    (http : String → Option String → Dict PyVal → Response) :
    List String × Except String RouteResult :=
  match SplitParams.from_route defaults kwargs additional
      (paramNames (parseTemplate path)) data_type with
  | Except.error e => ([], Except.error e)
  | Except.ok sp =>
    match make_url base_url path sp.path_params with
    | Except.error e => ([], Except.error e)
    | Except.ok url =>
      let resp := http url sp.content sp.query_params
      ([url],
        match resp.json with
        | Option.none => Except.ok RouteResult.softNone
        | Option.some j =>
          match response_model with
          | Option.none => Except.ok (RouteResult.raw j)
          | Option.some validate =>
            match validate j with
            | Except.ok r => Except.ok (RouteResult.validated r)
            | Except.error e => Except.error e)

/-! ## Transport-level defaults (`Client.make_request`, client.py 102-111)

`make_request` mutates the kwargs it will hand to `requests.request`:
`kwargs["params"] = kwargs.get("params", \x7b\x7d) | self.params` (and the
same for headers), `kwargs.setdefault("proxies", self.proxies)` when a
proxy is configured, and `kwargs.setdefault("verify", False)`.
`make_request_kwargs` is exactly that transformation. -/

structure ClientCfg : Type where
  params : Dict PyVal
  headers : Dict PyVal
  proxy : Option String
  proxies : Dict PyVal

structure TransportKwargs : Type where
  params : Option (Dict PyVal) := Option.none
  headers : Option (Dict PyVal) := Option.none
  proxies : Option (Dict PyVal) := Option.none
  verify : Option Bool := Option.none

def make_request_kwargs (c : ClientCfg) (kw : TransportKwargs) :
    TransportKwargs :=
  { params := some (Dict.union (kw.params.getD []) c.params)
    headers := some (Dict.union (kw.headers.getD []) c.headers)
    proxies := if c.proxy.isSome then some (kw.proxies.getD c.proxies)
      else kw.proxies
    verify := some (kw.verify.getD false) }

/-! ## Pagination cursor (`Client.get_next_offset`, client.py 119-125)

`urllib.parse.urlparse` strips the fragment (everything after the first
`#`) and then takes the query as everything after the first `?`;
`parse_qs` splits the query on `&`, drops empty fields, fields without `=`
and fields with an empty value (defaults `keep_blank_values=False`,
`strict_parsing=False`), `unquote_plus`-decodes names and values, and
groups values per name in first-occurrence order.  Percent escapes are
decoded bytewise (exact for the ASCII byte range; Python additionally
UTF-8-decodes multibyte sequences, which no URL in this client's flow
uses). -/

/-- Splits off everything after the first occurrence of `c` (Python
`str.split(c, 1)`): returns the part before and, when `c` occurs, the part
after. -/
def splitFirst (c : Char) : List Char → List Char × Option (List Char)
  | [] => ([], Option.none)
  | x :: xs =>
    if x = c then ([], some xs)
    else
      let p := splitFirst c xs
      (x :: p.1, p.2)

/-- Splits on every occurrence of `c` (Python `str.split(c)`). -/
def splitSep (c : Char) : List Char → List (List Char)
  | [] => [[]]
  | x :: xs =>
    let r := splitSep c xs
    if x = c then [] :: r
    else
      match r with
      | [] => [[x]]
      | a :: rest => (x :: a) :: rest

def isHexDigit (c : Char) : Bool :=
  ('0' ≤ c && c ≤ '9') || ('a' ≤ c && c ≤ 'f') || ('A' ≤ c && c ≤ 'F')

def hexVal (c : Char) : Nat :=
  if '0' ≤ c && c ≤ '9' then c.toNat - '0'.toNat
  else if 'a' ≤ c && c ≤ 'f' then c.toNat - 'a'.toNat + 10
  else c.toNat - 'A'.toNat + 10

/-- Percent-decoding of `urllib.parse.unquote`: a valid `%XX` escape
becomes the byte `XX` (exact for the ASCII byte range; CPython
additionally UTF-8-decodes multibyte sequences); an invalid escape is
kept literally. -/
def percentDecode : List Char → List Char
  | [] => []
  | c :: rest =>
    if c = '%' then
      match rest with
      | a :: b :: rest2 =>
        if isHexDigit a && isHexDigit b then
          Char.ofNat (16 * hexVal a + hexVal b) :: percentDecode rest2
        else '%' :: percentDecode (a :: b :: rest2)
      | r => '%' :: percentDecode r
    else c :: percentDecode rest

/-- `urllib.parse.unquote_plus`: `+` becomes a space, then percent escapes
are decoded. -/
def unquote_plus (l : List Char) : List Char :=
  percentDecode (l.map (fun c => if c = '+' then ' ' else c))

/-- One `name=value` field of a query string, decoded as
`urllib.parse.parse_qsl` does with default options: an empty field, a
field without `=` or a field with an empty value yields nothing. -/
def qsPair (nv : List Char) : Option (String × String) :=
  if nv.isEmpty then Option.none
  else
    match splitFirst '=' nv with
    | (_, Option.none) => Option.none
    | (name, Option.some value) =>
      if value.isEmpty then Option.none
      else some (String.mk (unquote_plus name),
        String.mk (unquote_plus value))

/-- `urllib.parse.parse_qsl` with default options: split on `&` and decode
the surviving fields. -/
def parse_qsl (q : List Char) : List (String × String) :=
  (splitSep '&' q).filterMap qsPair

/-- Appends one value under a key, preserving first-occurrence key order
(the grouping step of `parse_qs`). -/
def addMulti : Dict (List String) → String → String → Dict (List String)
  | [], k, v => [(k, [v])]
  | p :: rest, k, v =>
    if p.1 = k then (p.1, p.2 ++ [v]) :: rest
    else p :: addMulti rest k v

/-- `urllib.parse.parse_qs`: the parsed pairs grouped per name. -/
def parse_qs (q : List Char) : Dict (List String) :=
  (parse_qsl q).foldl (fun d kv => addMulti d kv.1 kv.2) []

/-- Query component of a URL as `urlparse` extracts it: the fragment
(first `#` onwards) is removed, then the query is everything after the
first `?` (empty when there is none). -/
def urlQuery (h : List Char) : List Char :=
  let preFragment := (splitFirst '#' h).1
  match splitFirst '?' preFragment with
  | (_, Option.some q) => q
  | (_, Option.none) => []

/-- `Client.get_next_offset` (client.py 119-125): `None` or an empty URL
yields `None`; otherwise the first value of the `offset` query parameter,
or `None` when the query has no such parameter. -/
def get_next_offset (href : Option String) : Option String :=
  match href with
  | Option.none => Option.none
  | Option.some h =>
    if h = "" then Option.none
    else
      match Dict.get (parse_qs (urlQuery h.data)) "offset" with
      | Option.none => Option.none
      | Option.some vs => vs.head?

/-! ## Batched track resolution (client.py 212-221)

`prepare_track_ids` joins ids with commas; `get_all_tracks` chunks the id
list and flattens one `get_tracks` bulk lookup per chunk.  `get_tracks`
itself is a routed endpoint (a network call), passed here as an oracle.

`chunk_list` lives in `soundcloud_tools/utils.py`, which is not part of
the sources under verification. -/

/-- Modelled from the spec: `chunk_list` from `soundcloud_tools.utils` is
not under `src/`; the spec says ids are partitioned "into consecutive
fixed-size batches", the last batch holding the remainder.  The fuel (the
list length) makes the recursion structural; `n = 0` never occurs. -/
def chunk_list_aux {α : Type u} : Nat → List α → Nat → List (List α)
  | _, [], _ => []
  | 0, _ :: _, _ => []
  | fuel + 1, a :: t, n =>
    if n = 0 then []
    else (a :: t).take n :: chunk_list_aux fuel ((a :: t).drop n) n

/-- Modelled from the spec: consecutive batches of `n` elements, the last
batch possibly shorter. -/
def chunk_list {α : Type u} (l : List α) (n : Nat) : List (List α) :=
  chunk_list_aux l.length l n

/-- `Client.prepare_track_ids` (client.py 212-214). -/
def prepare_track_ids (ids : List Int) : String :=
  String.intercalate "," (ids.map toString)

/-- `Client.get_all_tracks` (client.py 216-221): one `get_tracks` bulk
lookup per chunk, results flattened in chunk order.  `get_tracks` is the
routed endpoint, supplied as an oracle from id-string to track list. -/
def get_all_tracks {T : Type} (get_tracks : String → List T)
    (track_ids : List Int) (chunk_size : Nat := 30) : List T :=
  ((chunk_list track_ids chunk_size).map
    (fun c => get_tracks (prepare_track_ids c))).flatten

/-- Batch sizes of `chunk_list` on a list of length `len` (fuel-indexed
like `chunk_list_aux`). -/
def chunkSizesAux : Nat → Nat → Nat → List Nat
  | _, 0, _ => []
  | 0, _ + 1, _ => []
  | fuel + 1, m + 1, n =>
    if n = 0 then []
    else min n (m + 1) :: chunkSizesAux fuel (m + 1 - n) n

def chunkSizes (len n : Nat) : List Nat :=
  chunkSizesAux len len n

/-! ## Unresolved-placeholder predicates

An unresolved `\x7bname\x7d` placeholder would leave an opening brace in
the formatted URL, so "no unresolved placeholders" is "no opening brace",
given that the template's literal characters and the substituted values
are themselves brace-free (true of every template and path value in the
repo). -/

def braceFree (s : String) : Bool :=
  s.data.all (fun c => c != '\x7b')

def litsBraceFree (t : Template) : Bool :=
  t.all (fun s => match s with
    | Segment.lit c => c != '\x7b'
    | Segment.param _ => true)

def valsBraceFree (d : Dict PyVal) : Bool :=
  d.all (fun p => braceFree p.2.pyStr)

/-! ## Small helper lemmas -/

theorem opt_none_orElse {α : Type u} (x : Option α) :
    (Option.none).orElse (fun _ => x) = x := rfl

theorem opt_some_orElse {α : Type u} (a : α) (x : Option α) :
    (Option.some a).orElse (fun _ => x) = some a := rfl

theorem asDict_dict (d : List (String × PyVal)) :
    (PyVal.dict d).asDict = d := rfl

theorem except_map_ok {ε α β : Type} {f : α → β} {x : Except ε α} {y : β}
    (h : Except.map f x = Except.ok y) :
    ∃ a, x = Except.ok a ∧ f a = y := by
  cases x with
  | error e => simp [Except.map] at h
  | ok a =>
    refine ⟨a, rfl, ?_⟩
    simpa [Except.map] using h

theorem braceFree_append (a b : String) :
    braceFree (a ++ b) = (braceFree a && braceFree b) := by
  simp [braceFree, String.data_append, List.all_append]

theorem dict_get_mem {V : Type u} {d : Dict V} {k : String} {v : V}
    (h : Dict.get d k = some v) : (k, v) ∈ d := by
  induction d with
  | nil => simp [Dict.get] at h
  | cons p rest ih =>
    rw [Dict.get_cons] at h
    by_cases hp : p.1 = k
    · rw [if_pos hp] at h
      cases p with
      | mk a b =>
        dsimp only at hp h
        subst hp
        injection h with h
        subst h
        exact List.mem_cons_self _ _
    · rw [if_neg hp] at h
      exact List.mem_cons_of_mem _ (ih h)

theorem paramNames_cons_param (n : String) (rest : Template) :
    paramNames (Segment.param n :: rest) = n :: paramNames rest := by
  simp [paramNames]

theorem paramNames_cons_lit (c : Char) (rest : Template) :
    paramNames (Segment.lit c :: rest) = paramNames rest := by
  simp [paramNames]

/-- A template whose placeholders all have brace-free values supplied
formats successfully into a brace-free string. -/
theorem formatPath_ok (t : Template) (ps : Dict PyVal)
    (hl : litsBraceFree t = true) (hv : valsBraceFree ps = true)
    (h : ∀ n ∈ paramNames t, (Dict.get ps n).isSome = true) :
    ∃ s, formatPath t ps = Except.ok s ∧ braceFree s = true := by
  induction t with
  | nil => exact ⟨"", rfl, rfl⟩
  | cons seg rest ih =>
    rw [litsBraceFree, List.all_cons, Bool.and_eq_true] at hl
    obtain ⟨hseg, hrest⟩ := hl
    cases seg with
    | lit c =>
      obtain ⟨s, hs, hb⟩ := ih hrest (by
        intro n hn
        exact h n (by rwa [paramNames_cons_lit]))
      refine ⟨String.singleton c ++ s, ?_, ?_⟩
      · rw [formatPath, hs]
        rfl
      · rw [braceFree_append, hb, Bool.and_true]
        simpa [braceFree, String.singleton] using hseg
    | param n =>
      have hn : (Dict.get ps n).isSome = true := by
        refine h n ?_
        rw [paramNames_cons_param]
        exact List.mem_cons_self _ _
      obtain ⟨v, hvv⟩ := Option.isSome_iff_exists.mp hn
      obtain ⟨s, hs, hb⟩ := ih hrest (by
        intro m hm
        refine h m ?_
        rw [paramNames_cons_param]
        exact List.mem_cons_of_mem _ hm)
      refine ⟨v.pyStr ++ s, ?_, ?_⟩
      · rw [formatPath, hvv, hs]
        rfl
      · rw [braceFree_append, hb, Bool.and_true]
        have hmem := dict_get_mem hvv
        rw [valsBraceFree] at hv
        exact List.all_eq_true.mp hv (n, v) hmem

/-- A template with a placeholder whose value is missing fails to format:
`str.format` raises `KeyError`. -/
theorem formatPath_missing (t : Template) (ps : Dict PyVal)
    (h : ∃ n ∈ paramNames t, Dict.get ps n = Option.none) :
    ∃ e, formatPath t ps = Except.error e := by
  induction t with
  | nil => simp [paramNames] at h
  | cons seg rest ih =>
    cases seg with
    | lit c =>
      obtain ⟨e, he⟩ := ih (by rwa [paramNames_cons_lit] at h)
      refine ⟨e, ?_⟩
      rw [formatPath, he]
      rfl
    | param n =>
      obtain ⟨m, hm, hget⟩ := h
      rw [paramNames_cons_param] at hm
      by_cases hc : Dict.get ps n = Option.none
      · refine ⟨"KeyError: " ++ n, ?_⟩
        rw [formatPath, hc]
      · have hmn : m ≠ n := fun hEq => hc (hEq ▸ hget)
        have hmem : m ∈ paramNames rest := by
          rcases List.mem_cons.mp hm with h1 | h2
          · exact absurd h1 hmn
          · exact h2
        obtain ⟨e, he⟩ := ih ⟨m, hmem, hget⟩
        obtain ⟨v, hvv⟩ :=
          Option.ne_none_iff_exists'.mp hc
        refine ⟨e, ?_⟩
        rw [formatPath, hvv, he]
        rfl

/-! ## Claims -/

/-- C1 (counterexample): in `make_request`, `kwargs["params"] =
kwargs.get("params", \x7b\x7d) | self.params` puts the client-wide
defaults on the right of the dict union, so on a key collision the
client-wide default wins and the caller-supplied value is dropped: a
caller sending `client_id = "caller-value"` has it replaced by the
client's own `client_id`. -/
theorem make_request_caller_value_dropped :
    (TransportKwargs.params
        ⟨some [("client_id", PyVal.str "caller-value")],
          Option.none, Option.none, Option.none⟩ =
      some [("client_id", PyVal.str "caller-value")]) ∧
    ((make_request_kwargs
        ⟨[("client_id", PyVal.str "client-default")], [], Option.none, []⟩
        ⟨some [("client_id", PyVal.str "caller-value")],
          Option.none, Option.none, Option.none⟩).params.getD []).get
        "client_id" = some (PyVal.str "client-default") ∧
    PyVal.str "client-default" ≠ PyVal.str "caller-value" := by
  refine ⟨rfl, rfl, ?_⟩
  intro h
  simp at h

/-- C1 (amended): for every request executed by the client, when a
caller-supplied query parameter or header key collides with a client-wide
default key, the client-wide default value is the one sent; caller-defined
values only fill gaps for keys the client does not define. -/
theorem make_request_client_defaults_precedence
    (c : ClientCfg) (kw : TransportKwargs) (k : String) :
    ∃ p h, (make_request_kwargs c kw).params = some p ∧
      (make_request_kwargs c kw).headers = some h ∧
      Dict.get p k =
        (Dict.get c.params k).orElse
          (fun _ => Dict.get (kw.params.getD []) k) ∧
      Dict.get h k =
        (Dict.get c.headers k).orElse
          (fun _ => Dict.get (kw.headers.getD []) k) := by
  exact ⟨_, _, rfl, rfl, Dict.get_union _ _ _, Dict.get_union _ _ _⟩

/-- C9: every request prepared by `make_request` is handed to
`requests.request` with `verify=False` unless the caller explicitly
supplies a `verify` transport option, in which case the caller's value is
kept (`kwargs.setdefault("verify", False)`, client.py line 107). -/
theorem make_request_verify_disabled_by_default
    (c : ClientCfg) (kw : TransportKwargs) :
    (kw.verify = Option.none →
      (make_request_kwargs c kw).verify = some false) ∧
    (∀ b, kw.verify = some b →
      (make_request_kwargs c kw).verify = some b) := by
  constructor
  · intro h
    simp [make_request_kwargs, h]
  · intro b h
    simp [make_request_kwargs, h]

theorem make_request_verify_disabled_by_default_witness :
    (make_request_kwargs ⟨[], [], Option.none, []⟩
      ⟨Option.none, Option.none, Option.none, Option.none⟩).verify =
        some false ∧
    (make_request_kwargs ⟨[], [], Option.none, []⟩
      ⟨Option.none, Option.none, Option.none, some true⟩).verify =
        some true :=
  ⟨(make_request_verify_disabled_by_default ⟨[], [], Option.none, []⟩
      ⟨Option.none, Option.none, Option.none, Option.none⟩).1 rfl,
    (make_request_verify_disabled_by_default ⟨[], [], Option.none, []⟩
      ⟨Option.none, Option.none, Option.none, some true⟩).2 true rfl⟩

/-- C2: a routed call whose response body fails JSON decoding logs the
failure and returns `None` (`RouteResult.softNone`) — the result is
`Except.ok`, never an exception, whatever the response's status code or
content; exactly the one request was made. -/
theorem route_soft_failure_returns_none
    (base path : String) (defaults kwargs additional : Dict PyVal)
    (dt : Option (PyVal → Except String String))
    (rm : Option (PyVal → Except String PyVal))
    (http : String → Option String → Dict PyVal → Response)
    (sp : SplitParams) (url : String)
    (hsp : SplitParams.from_route defaults kwargs additional
      (paramNames (parseTemplate path)) dt = Except.ok sp)
    (hurl : make_url base path sp.path_params = Except.ok url)
    (hjson : (http url sp.content sp.query_params).json = Option.none) :
    route base path defaults kwargs additional dt rm http =
      ([url], Except.ok RouteResult.softNone) := by
  unfold route
  simp only [hsp, hurl, hjson]

theorem route_soft_failure_returns_none_witness :
    route "https://api-v2.soundcloud.com" "search" [] [] [] Option.none
      (some (fun j => Except.ok j)) (fun _ _ _ => ⟨Option.none⟩) =
      (["https://api-v2.soundcloud.com/search"],
        Except.ok RouteResult.softNone) :=
  route_soft_failure_returns_none "https://api-v2.soundcloud.com" "search"
    [] [] [] Option.none (some (fun j => Except.ok j))
    (fun _ _ _ => ⟨Option.none⟩)
    ⟨[], [], PyVal.none, Option.none, []⟩
    "https://api-v2.soundcloud.com/search" rfl rfl rfl

/-- C3: a routed call that declares a response model, whose response body
parses as JSON but fails validation against the model, propagates the
validation error (`Except.error`) to the caller instead of returning a
value. -/
theorem route_validation_error_raises
    (base path : String) (defaults kwargs additional : Dict PyVal)
    (dt : Option (PyVal → Except String String))
    (validate : PyVal → Except String PyVal)
    (http : String → Option String → Dict PyVal → Response)
    (sp : SplitParams) (url : String) (j : PyVal) (e : String)
    (hsp : SplitParams.from_route defaults kwargs additional
      (paramNames (parseTemplate path)) dt = Except.ok sp)
    (hurl : make_url base path sp.path_params = Except.ok url)
    (hjson : (http url sp.content sp.query_params).json = some j)
    (hval : validate j = Except.error e) :
    route base path defaults kwargs additional dt (some validate) http =
      ([url], Except.error e) := by
  unfold route
  simp only [hsp, hurl, hjson, hval]

theorem route_validation_error_raises_witness :
    route "https://api-v2.soundcloud.com" "search" [] [] [] Option.none
      (some (fun _ => Except.error "validation failed"))
      (fun _ _ _ => ⟨some (PyVal.dict [])⟩) =
      (["https://api-v2.soundcloud.com/search"],
        Except.error "validation failed") :=
  route_validation_error_raises "https://api-v2.soundcloud.com" "search"
    [] [] [] Option.none (fun _ => Except.error "validation failed")
    (fun _ _ _ => ⟨some (PyVal.dict [])⟩)
    ⟨[], [], PyVal.none, Option.none, []⟩
    "https://api-v2.soundcloud.com/search" (PyVal.dict []) "validation failed"
    rfl rfl rfl rfl

/-- C8: when a truthy body payload is supplied and the endpoint annotates
`data` with a schema type, `from_route` serializes the payload through the
schema's `TypeAdapter` before any request; a payload failing validation
makes the whole routed call raise with no network request issued (the
request list is empty). -/
theorem route_body_validated_before_request
    (base path : String) (defaults kwargs additional : Dict PyVal)
    (ser : PyVal → Except String String)
    (rm : Option (PyVal → Except String PyVal))
    (http : String → Option String → Dict PyVal → Response)
    (d : PyVal) (e : String)
    (hd : Dict.get (Dict.union defaults kwargs) "data" = some d)
    (htruthy : d.truthy = true)
    (hser : ser d = Except.error e) :
    route base path defaults kwargs additional (some ser) rm http =
      ([], Except.error e) := by
  unfold route
  have hd1 : Dict.get (Dict.erase (Dict.union defaults kwargs) "kwargs")
      "data" = some d := by
    rw [Dict.get_erase]
    simp [hd]
  unfold SplitParams.from_route
  simp only [hd1, Option.getD_some, htruthy, if_true, hser, Except.map]

theorem route_body_validated_before_request_witness :
    route "https://api-v2.soundcloud.com" "playlists" []
      [("data", PyVal.dict [("title", PyVal.int 3)])] []
      (some (fun v => match v with
        | PyVal.dict [("title", PyVal.str s)] =>
          Except.ok ("\x7b\x22title\x22: \x22" ++ s ++ "\x22\x7d")
        | _ => Except.error "1 validation error for PlaylistCreateRequest"))
      Option.none (fun _ _ _ => ⟨some (PyVal.dict [])⟩) =
      ([], Except.error "1 validation error for PlaylistCreateRequest") :=
  route_body_validated_before_request "https://api-v2.soundcloud.com"
    "playlists" [] [("data", PyVal.dict [("title", PyVal.int 3)])] []
    (fun v => match v with
      | PyVal.dict [("title", PyVal.str s)] =>
        Except.ok ("\x7b\x22title\x22: \x22" ++ s ++ "\x22\x7d")
      | _ => Except.error "1 validation error for PlaylistCreateRequest")
    Option.none (fun _ _ _ => ⟨some (PyVal.dict [])⟩)
    (PyVal.dict [("title", PyVal.int 3)])
    "1 validation error for PlaylistCreateRequest" rfl rfl rfl

/-- C7: `from_route` routes every caller keyword argument whose name is a
path-template placeholder to path substitution and every other one to the
query parameters, merged with the endpoint's declared defaults with the
caller winning on collisions.  The reserved transport keys `data`,
`kwargs` and `params` are popped before the split (and every endpoint body
in the repo returns `None`, so `additional` is empty). -/
theorem from_route_param_split
    (defaults kwargs : Dict PyVal) (expected : List String)
    (dt : Option (PyVal → Except String String)) (sp : SplitParams)
    (k : String)
    (hk1 : k ≠ "data") (hk2 : k ≠ "kwargs") (hk3 : k ≠ "params")
    (hparams : Dict.get (Dict.union defaults kwargs) "params" = Option.none)
    (hsp : SplitParams.from_route defaults kwargs [] expected dt =
      Except.ok sp) :
    (k ∈ expected →
      Dict.get sp.path_params k =
        (Dict.get kwargs k).orElse (fun _ => Dict.get defaults k) ∧
      Dict.get sp.query_params k = Option.none) ∧
    (k ∉ expected →
      Dict.get sp.query_params k =
        (Dict.get kwargs k).orElse (fun _ => Dict.get defaults k) ∧
      Dict.get sp.path_params k = Option.none) := by
  have hAD : ∀ k' : String, Dict.get (PyVal.asDict ((Dict.get
      (Dict.erase ([] : Dict PyVal) "kwargs") "query").getD
      (PyVal.dict []))) k' = Option.none := fun _ => rfl
  have hparams2 : (Dict.get kwargs "params").orElse
      (fun _ => Dict.get defaults "params") = Option.none := by
    rw [← Dict.get_union]
    exact hparams
  unfold SplitParams.from_route at hsp
  obtain ⟨content, hcon, hy⟩ := except_map_ok hsp
  subst hy
  refine ⟨fun hin => ⟨?_, ?_⟩, fun hout => ⟨?_, ?_⟩⟩
  · dsimp only
    rw [Dict.get_filter_mem, if_pos hin, Dict.get_erase, if_neg hk1,
      Dict.get_erase, if_neg hk2, Dict.get_union]
  · dsimp only
    simp [Dict.get_union, Dict.get_erase, Dict.get_filter_mem,
      Dict.get_filter_not_mem, asDict_dict, hAD, opt_none_orElse,
      hk1, hk2, hk3, hin, hparams2]
  · dsimp only
    simp [Dict.get_union, Dict.get_erase, Dict.get_filter_mem,
      Dict.get_filter_not_mem, asDict_dict, hAD, opt_none_orElse,
      hk1, hk2, hk3, hout, hparams2]
  · dsimp only
    rw [Dict.get_filter_mem, if_neg hout]

theorem from_route_param_split_witness :
    Dict.get (SplitParams.mk [("user_id", PyVal.int 42)]
        [("limit", PyVal.int 5)] PyVal.none Option.none []).query_params
      "limit" =
      (Dict.get [("user_id", PyVal.int 42), ("limit", PyVal.int 5)]
        "limit").orElse
        (fun _ => Dict.get [("limit", PyVal.int 100)] "limit") ∧
    Dict.get (SplitParams.mk [("user_id", PyVal.int 42)]
        [("limit", PyVal.int 5)] PyVal.none Option.none []).path_params
      "limit" = Option.none :=
  (from_route_param_split [("limit", PyVal.int 100)]
    [("user_id", PyVal.int 42), ("limit", PyVal.int 5)] ["user_id"]
    Option.none _ "limit" (by decide) (by decide) (by decide) rfl rfl).2
    (by decide)

theorem splitFirst_not_mem (c : Char) (l : List Char) (h : c ∉ l) :
    splitFirst c l = (l, Option.none) := by
  induction l with
  | nil => rfl
  | cons x xs ih =>
    rw [splitFirst, if_neg (by
      intro hx
      exact h (hx ▸ List.mem_cons_self x xs))]
    rw [ih (fun hm => h (List.mem_cons_of_mem x hm))]

theorem splitFirst_append (c : Char) (l₁ l₂ : List Char) (h : c ∉ l₁) :
    splitFirst c (l₁ ++ c :: l₂) = (l₁, some l₂) := by
  induction l₁ with
  | nil =>
    rw [List.nil_append, splitFirst, if_pos rfl]
  | cons x xs ih =>
    rw [List.cons_append, splitFirst, if_neg (by
      intro hx
      exact h (hx ▸ List.mem_cons_self x xs))]
    rw [ih (fun hm => h (List.mem_cons_of_mem x hm))]

theorem splitSep_not_mem (c : Char) (l : List Char) (h : c ∉ l) :
    splitSep c l = [l] := by
  induction l with
  | nil => rfl
  | cons x xs ih =>
    rw [splitSep, ih (fun hm => h (List.mem_cons_of_mem x hm)),
      if_neg (by
        intro hx
        exact h (hx ▸ List.mem_cons_self x xs))]

theorem percentDecode_cons_ne (x : Char) (xs : List Char)
    (hx : x ≠ '%') : percentDecode (x :: xs) = x :: percentDecode xs := by
  rw [percentDecode.eq_def]
  simp [hx]

theorem percentDecode_id (l : List Char) (h : '%' ∉ l) :
    percentDecode l = l := by
  induction l with
  | nil => rfl
  | cons x xs ih =>
    rw [percentDecode_cons_ne x xs (by
      intro hx
      exact h (hx ▸ List.mem_cons_self x xs))]
    rw [ih (fun hm => h (List.mem_cons_of_mem x hm))]

theorem unquote_plus_id (l : List Char) (hp : '%' ∉ l) (hpl : '+' ∉ l) :
    unquote_plus l = l := by
  unfold unquote_plus
  have hmap : l.map (fun c => if c = '+' then ' ' else c) = l := by
    have : ∀ c ∈ l, (if c = '+' then ' ' else c) = id c := by
      intro c hc
      rw [if_neg (by
        intro hc'
        exact hpl (hc' ▸ hc))]
      rfl
    rw [List.map_congr_left this, List.map_id]
  rw [hmap]
  exact percentDecode_id l hp

theorem addMulti_get_ne (d : Dict (List String)) (k' : String) (v : String)
    (k : String) (h : k' ≠ k) :
    Dict.get (addMulti d k' v) k = Dict.get d k := by
  induction d with
  | nil => simp [addMulti, Dict.get, h]
  | cons p rest ih =>
    rw [addMulti]
    by_cases hp : p.1 = k'
    · rw [if_pos hp, Dict.get_cons, Dict.get_cons]
      dsimp only
      have hpk : ¬ p.1 = k := by
        rw [hp]
        exact h
      rw [if_neg hpk, if_neg hpk]
    · rw [if_neg hp, Dict.get_cons, Dict.get_cons, ih]

theorem parse_qs_foldl_get_none (l : List (String × String)) (k : String)
    (h : ∀ kv ∈ l, kv.1 ≠ k) :
    ∀ d : Dict (List String), Dict.get d k = Option.none →
      Dict.get (l.foldl (fun d kv => addMulti d kv.1 kv.2) d) k =
        Option.none := by
  induction l with
  | nil =>
    intro d hd
    exact hd
  | cons kv rest ih =>
    intro d hd
    rw [List.foldl_cons]
    refine ih (fun p hp => h p (List.mem_cons_of_mem kv hp)) _ ?_
    rw [addMulti_get_ne _ _ _ _ (h kv (List.mem_cons_self kv rest))]
    exact hd

/-- C4: for every endpoint declaration, when the split path parameters
cover all the path-template placeholders, the routed call requests exactly
one URL and that URL has no unresolved placeholder (no opening brace);
when a required path parameter is missing, `path.format` raises `KeyError`
inside `make_url` and the call fails with no network request issued (the
request list is empty). -/
theorem route_path_params_fail_fast
    (base path : String) (defaults kwargs additional : Dict PyVal)
    (dt : Option (PyVal → Except String String))
    (rm : Option (PyVal → Except String PyVal))
    (http : String → Option String → Dict PyVal → Response)
    (sp : SplitParams)
    (hsp : SplitParams.from_route defaults kwargs additional
      (paramNames (parseTemplate path)) dt = Except.ok sp)
    (hl : litsBraceFree (parseTemplate path) = true)
    (hv : valsBraceFree sp.path_params = true)
    (hbase : braceFree base = true) :
    ((∀ n ∈ paramNames (parseTemplate path),
        (Dict.get sp.path_params n).isSome = true) →
      ∃ url, (route base path defaults kwargs additional dt rm http).1 =
          [url] ∧ braceFree url = true) ∧
    ((∃ n ∈ paramNames (parseTemplate path),
        Dict.get sp.path_params n = Option.none) →
      (route base path defaults kwargs additional dt rm http).1 = [] ∧
      ∃ e, (route base path defaults kwargs additional dt rm http).2 =
        Except.error e) := by
  constructor
  · intro hall
    obtain ⟨s, hs, hb⟩ := formatPath_ok _ _ hl hv hall
    have hmu : make_url base path sp.path_params =
        Except.ok (base ++ "/" ++ s) := by
      unfold make_url
      rw [hs]
      rfl
    refine ⟨base ++ "/" ++ s, ?_, ?_⟩
    · unfold route
      simp only [hsp, hmu]
    · rw [braceFree_append, braceFree_append, hbase, hb, Bool.true_and,
        Bool.and_true]
      rfl
  · intro hmiss
    obtain ⟨e, he⟩ := formatPath_missing _ _ hmiss
    have hmu : make_url base path sp.path_params = Except.error e := by
      unfold make_url
      rw [he]
      rfl
    constructor
    · unfold route
      simp only [hsp, hmu]
    · refine ⟨e, ?_⟩
      unfold route
      simp only [hsp, hmu]

theorem route_path_params_fail_fast_witness :
    (∃ url,
      (route "https://api-v2.soundcloud.com" "users/\x7buser_id\x7d/likes"
        [("limit", PyVal.int 100)] [("user_id", PyVal.int 7)] []
        Option.none Option.none (fun _ _ _ => ⟨some (PyVal.dict [])⟩)).1 =
        [url] ∧ braceFree url = true) ∧
    ((route "https://api-v2.soundcloud.com" "users/\x7buser_id\x7d/likes"
        [("limit", PyVal.int 100)] [] [] Option.none Option.none
        (fun _ _ _ => ⟨some (PyVal.dict [])⟩)).1 = [] ∧
      ∃ e, (route "https://api-v2.soundcloud.com"
        "users/\x7buser_id\x7d/likes" [("limit", PyVal.int 100)] [] []
        Option.none Option.none
        (fun _ _ _ => ⟨some (PyVal.dict [])⟩)).2 = Except.error e) :=
  ⟨(route_path_params_fail_fast "https://api-v2.soundcloud.com"
      "users/\x7buser_id\x7d/likes" [("limit", PyVal.int 100)]
      [("user_id", PyVal.int 7)] [] Option.none Option.none
      (fun _ _ _ => ⟨some (PyVal.dict [])⟩)
      ⟨[("user_id", PyVal.int 7)], [("limit", PyVal.int 100)], PyVal.none,
        Option.none, []⟩
      rfl (by decide) (by decide) (by decide)).1 (by decide),
    (route_path_params_fail_fast "https://api-v2.soundcloud.com"
      "users/\x7buser_id\x7d/likes" [("limit", PyVal.int 100)] [] []
      Option.none Option.none (fun _ _ _ => ⟨some (PyVal.dict [])⟩)
      ⟨[], [("limit", PyVal.int 100)], PyVal.none, Option.none, []⟩
      rfl (by decide) (by decide) (by decide)).2
      ⟨"user_id", by decide, rfl⟩⟩

theorem chunk_list_aux_flatten {α : Type u} :
    ∀ (fuel : Nat) (l : List α) (n : Nat), l.length ≤ fuel → 0 < n →
      (chunk_list_aux fuel l n).flatten = l := by
  intro fuel
  induction fuel with
  | zero =>
    intro l n hl hn
    cases l with
    | nil => rfl
    | cons a t => simp at hl
  | succ f ih =>
    intro l n hl hn
    cases l with
    | nil => rfl
    | cons a t =>
      rw [chunk_list_aux, if_neg (Nat.pos_iff_ne_zero.mp hn),
        List.flatten_cons]
      rw [ih ((a :: t).drop n) n (by
        rw [List.length_drop n (a :: t)]
        simp only [List.length_cons] at hl ⊢
        omega) hn]
      exact List.take_append_drop n (a :: t)

theorem chunk_list_aux_sizes {α : Type u} :
    ∀ (fuel : Nat) (l : List α) (n : Nat),
      (chunk_list_aux fuel l n).map List.length =
        chunkSizesAux fuel l.length n := by
  intro fuel
  induction fuel with
  | zero =>
    intro l n
    cases l with
    | nil => rfl
    | cons a t => rfl
  | succ f ih =>
    intro l n
    cases l with
    | nil => rfl
    | cons a t =>
      by_cases hn : n = 0
      · subst hn
        rfl
      · rw [chunk_list_aux, if_neg hn, List.map_cons,
          List.length_take n (a :: t), ih ((a :: t).drop n) n,
          List.length_drop n (a :: t), List.length_cons, chunkSizesAux,
          if_neg hn]

theorem chunkSizesAux_length :
    ∀ (fuel len n : Nat), len ≤ fuel → 0 < n →
      (chunkSizesAux fuel len n).length = (len + n - 1) / n := by
  intro fuel
  induction fuel with
  | zero =>
    intro len n hl hn
    interval_cases len
    rw [chunkSizesAux, List.length_nil, Nat.zero_add,
      Nat.div_eq_of_lt (by omega)]
  | succ f ih =>
    intro len n hl hn
    cases len with
    | zero =>
      rw [chunkSizesAux, List.length_nil, Nat.zero_add,
        Nat.div_eq_of_lt (by omega)]
    | succ m =>
      rw [chunkSizesAux, if_neg (Nat.pos_iff_ne_zero.mp hn),
        List.length_cons, ih (m + 1 - n) n (by omega) hn]
      have h1 : m + 1 + n - 1 = m + n := by omega
      rw [h1, Nat.add_div_right m hn]
      rcases le_or_lt n (m + 1) with h | h
      · have h3 : m + 1 - n + n - 1 = m := by omega
        rw [h3]
      · have h3 : m + 1 - n + n - 1 = n - 1 := by omega
        rw [h3, Nat.div_eq_of_lt (by omega), Nat.div_eq_of_lt (by omega)]

/-- C6 (spec-modelled `chunk_list`): `get_all_tracks` cuts the id list
into consecutive batches of 30 (the last batch holding the remainder),
issues exactly one `get_tracks` bulk lookup per batch — `⌈n / 30⌉` lookups
in total — and the flattened result preserves the original id order: when
each bulk lookup resolves its ids in request order, the whole result is
the per-id resolution of the original list in its original order. -/
theorem get_all_tracks_batching {T : Type} (track_ids : List Int)
    (f : Int → T) (gt : String → List T)
    (hgt : ∀ c ∈ chunk_list track_ids 30,
      gt (prepare_track_ids c) = c.map f) :
    (chunk_list track_ids 30).length = (track_ids.length + 29) / 30 ∧
    (chunk_list track_ids 30).map List.length =
      chunkSizes track_ids.length 30 ∧
    (chunk_list track_ids 30).flatten = track_ids ∧
    get_all_tracks gt track_ids 30 = track_ids.map f := by
  have hsizes : (chunk_list track_ids 30).map List.length =
      chunkSizes track_ids.length 30 :=
    chunk_list_aux_sizes track_ids.length track_ids 30
  have hflat : (chunk_list track_ids 30).flatten = track_ids :=
    chunk_list_aux_flatten track_ids.length track_ids 30 le_rfl (by omega)
  refine ⟨?_, hsizes, hflat, ?_⟩
  · have hlen : ((chunk_list track_ids 30).map List.length).length =
        (chunkSizes track_ids.length 30).length := by rw [hsizes]
    rw [List.length_map] at hlen
    rw [hlen, chunkSizes,
      chunkSizesAux_length track_ids.length track_ids.length 30 le_rfl
        (by omega)]
    have h30 : track_ids.length + 30 - 1 = track_ids.length + 29 := by omega
    rw [h30]
  · unfold get_all_tracks
    rw [List.map_congr_left hgt, ← List.map_flatten, hflat]

theorem get_all_tracks_batching_witness :
    (chunk_list ((List.range 75).map Int.ofNat) 30).length =
      (((List.range 75).map Int.ofNat).length + 29) / 30 ∧
    (chunk_list ((List.range 75).map Int.ofNat) 30).map List.length =
      chunkSizes ((List.range 75).map Int.ofNat).length 30 ∧
    (chunk_list ((List.range 75).map Int.ofNat) 30).flatten =
      (List.range 75).map Int.ofNat ∧
    get_all_tracks
      (fun s =>
        if s = prepare_track_ids ((List.range 30).map Int.ofNat) then
          (List.range 30).map Int.ofNat
        else if s = prepare_track_ids ((List.range' 30 30).map Int.ofNat)
          then (List.range' 30 30).map Int.ofNat
        else if s = prepare_track_ids ((List.range' 60 15).map Int.ofNat)
          then (List.range' 60 15).map Int.ofNat
        else [])
      ((List.range 75).map Int.ofNat) 30 =
      ((List.range 75).map Int.ofNat).map (fun i => i) :=
  get_all_tracks_batching ((List.range 75).map Int.ofNat) (fun i => i)
    (fun s =>
      if s = prepare_track_ids ((List.range 30).map Int.ofNat) then
        (List.range 30).map Int.ofNat
      else if s = prepare_track_ids ((List.range' 30 30).map Int.ofNat)
        then (List.range' 30 30).map Int.ofNat
      else if s = prepare_track_ids ((List.range' 60 15).map Int.ofNat)
        then (List.range' 60 15).map Int.ofNat
      else [])
    (by decide)

/-- C10 (spec-modelled `chunk_list`): an empty id list produces zero
batches, hence `get_all_tracks` applies `get_tracks` zero times (zero
network requests) and returns the empty list. -/
theorem get_all_tracks_empty_no_requests {T : Type}
    (gt : String → List T) (n : Nat) :
    chunk_list ([] : List Int) n = [] ∧
    get_all_tracks gt ([] : List Int) n = [] :=
  ⟨rfl, rfl⟩

/-- C5: `get_next_offset` returns the (first) `offset` query-parameter
value of a next-page URL (`...?offset=ABC` yields `"ABC"`); an absent
(`None`) or empty URL yields nothing; a URL whose query string has no
`offset` field yields nothing.  It is a pure Lean function, so the
same-output-for-same-input and no-side-effect part of the claim holds by
construction.  `base` is any prefix without `?` or `#`, and the cursor
value `abc` is any non-empty token free of the query-string
metacharacters `& = # % +`. -/
theorem get_next_offset_spec (base abc : String)
    (hb : ∀ c ∈ base.data, c ≠ '?' ∧ c ≠ '#')
    (ha : abc ≠ "")
    (hac : ∀ c ∈ abc.data,
      c ≠ '&' ∧ c ≠ '=' ∧ c ≠ '#' ∧ c ≠ '%' ∧ c ≠ '+') :
    get_next_offset (some (base ++ "?offset=" ++ abc)) = some abc ∧
    get_next_offset Option.none = Option.none ∧
    get_next_offset (some "") = Option.none ∧
    (∀ href : String, href ≠ "" →
      (∀ kv ∈ parse_qsl (urlQuery href.data), kv.1 ≠ "offset") →
      get_next_offset (some href) = Option.none) := by
  have habc : abc.data ≠ [] := by
    intro hnil
    apply ha
    cases abc with
    | mk d =>
      simp only at hnil
      rw [hnil]
  have hdata : (base ++ "?offset=" ++ abc).data =
      base.data ++ '?' :: ("offset=".data ++ abc.data) := by
    rw [String.data_append, String.data_append, List.append_assoc]
    congr 1
  have hnohash : '#' ∉ base.data ++ '?' :: ("offset=".data ++ abc.data) := by
    intro hm
    rcases List.mem_append.mp hm with h1 | h2
    · exact (hb '#' h1).2 rfl
    · rcases List.mem_cons.mp h2 with h3 | h4
      · exact absurd h3 (by decide)
      · rcases List.mem_append.mp h4 with h5 | h6
        · exact absurd h5 (by decide)
        · exact (hac '#' h6).2.2.1 rfl
  have hnoq : '?' ∉ base.data := fun hm => (hb '?' hm).1 rfl
  have hq : urlQuery ((base ++ "?offset=" ++ abc).data) =
      "offset=".data ++ abc.data := by
    rw [hdata]
    unfold urlQuery
    rw [splitFirst_not_mem '#' _ hnohash]
    dsimp only
    rw [splitFirst_append '?' base.data _ hnoq]
  have hshape : ("offset=".data ++ abc.data : List Char) =
      "offset".data ++ '=' :: abc.data := by
    have h1 : ("offset=".data : List Char) = "offset".data ++ ['='] := by
      decide
    rw [h1, List.append_assoc]
    rfl
  have hpair : qsPair ("offset=".data ++ abc.data) =
      some ("offset", abc) := by
    unfold qsPair
    rw [hshape, splitFirst_append '=' "offset".data abc.data (by decide)]
    obtain ⟨a0, t0, habc'⟩ := List.exists_cons_of_ne_nil habc
    rw [habc']
    dsimp only
    rw [if_neg (by simp), if_neg (by simp)]
    have hu : unquote_plus (a0 :: t0) = a0 :: t0 := by
      rw [← habc']
      exact unquote_plus_id _
        (fun hm => (hac '%' hm).2.2.2.1 rfl)
        (fun hm => (hac '+' hm).2.2.2.2 rfl)
    rw [hu]
    have hmk : String.mk (a0 :: t0) = abc := by
      rw [← habc']
    rw [hmk]
    have hoff : String.mk (unquote_plus "offset".data) = "offset" := by
      decide
    rw [hoff]
  have hamp : '&' ∉ ("offset=".data ++ abc.data : List Char) := by
    intro hm
    rcases List.mem_append.mp hm with h1 | h2
    · exact absurd h1 (by decide)
    · exact (hac '&' h2).1 rfl
  have hqsl : parse_qsl ("offset=".data ++ abc.data) =
      [("offset", abc)] := by
    unfold parse_qsl
    rw [splitSep_not_mem '&' _ hamp, List.filterMap_cons, hpair,
      List.filterMap_nil]
  have hne : ¬(base ++ "?offset=" ++ abc = "") := by
    intro h0
    have hd := congrArg String.data h0
    rw [hdata] at hd
    simp at hd
  refine ⟨?_, rfl, rfl, ?_⟩
  · unfold get_next_offset
    dsimp only
    rw [if_neg hne, hq]
    unfold parse_qs
    rw [hqsl]
    rfl
  · intro href hnee hkeys
    unfold get_next_offset
    dsimp only
    rw [if_neg hnee]
    have hnone : Dict.get (parse_qs (urlQuery href.data)) "offset" =
        Option.none := by
      unfold parse_qs
      exact parse_qs_foldl_get_none _ _ hkeys [] rfl
    rw [hnone]

theorem get_next_offset_spec_witness :
    get_next_offset
        (some ("https://api-v2.soundcloud.com/stream" ++ "?offset=" ++
          "1741500000")) = some "1741500000" ∧
    get_next_offset Option.none = Option.none :=
  ⟨(get_next_offset_spec "https://api-v2.soundcloud.com/stream"
      "1741500000" (by decide) (by decide) (by decide)).1,
    (get_next_offset_spec "https://api-v2.soundcloud.com/stream"
      "1741500000" (by decide) (by decide) (by decide)).2.1⟩

end SoundcloudTools
